import Mathlib

/-!
Verification of the LaoZhang image-edit API adapter (`editImage` / `generateVideo`).

The adapter builds a chat-completion request from an image plus a text
instruction, sends it over HTTP, extracts an image reference from the textual
response with a combined regex, and normalizes vendor error shapes.  This file
embeds the adapter shallowly: the regex
`/!\[.*?\]\((https?:\/\/[^\s)]+|data:image\/[^;]+;base64,[A-Za-z0-9+\/=]+)\)|(?:https?:\/\/[^\s\[\]()]+\.(?:png|jpg|jpeg|gif|webp)|data:image\/[^;]+;base64,[A-Za-z0-9+\/=]+)/gi`
is implemented as a deterministic matcher over `List Char` that follows the
JavaScript backtracking semantics of this particular pattern, and each control
path of the adapter is transcribed into a total Lean function.
-/

namespace Nano

/-- JavaScript `\s` character class (also the set removed by `String.prototype.trim`). -/
def jsSpace (c : Char) : Bool :=
  let n := c.toNat
  n == 0x20 || n == 0x9 || n == 0xA || n == 0xD || n == 0xB || n == 0xC ||
  n == 0xA0 || n == 0x1680 || (Nat.ble 0x2000 n && Nat.ble n 0x200A) ||
  n == 0x2028 || n == 0x2029 || n == 0x202F || n == 0x205F || n == 0x3000 || n == 0xFEFF

/-- JavaScript `.` (without the `s` flag): any character except line terminators. -/
def dotAny (c : Char) : Bool :=
  !(c == '\n' || c == '\r' || c.toNat == 0x2028 || c.toNat == 0x2029)

/-- Character class `[^\s)]` used inside the markdown group's http branch. -/
def clsUrl1 (c : Char) : Bool := !jsSpace c && c != ')'

/-- Character class `[^\s\[\]()]` used by the bare-URL alternative. -/
def clsBareUrl (c : Char) : Bool :=
  !jsSpace c && c != '[' && c != ']' && c != '(' && c != ')'

/-- Character class `[^;]` used by the data-URI alternative. -/
def clsNonSemi (c : Char) : Bool := c != ';'

/-- Character class `[A-Za-z0-9+\/=]` for the base64 payload. -/
def clsB64 (c : Char) : Bool :=
  let n := c.toNat
  (Nat.ble 0x41 n && Nat.ble n 0x5A) || (Nat.ble 0x61 n && Nat.ble n 0x7A) ||
  (Nat.ble 0x30 n && Nat.ble n 0x39) || c == '+' || c == '/' || c == '='

/-- A matcher consumes a prefix of the input and returns (consumed, rest). -/
abbrev Matcher := List Char → Option (List Char × List Char)

/-- Case-insensitive literal (the regex carries the `i` flag); the pattern is
given in lowercase and input characters are folded with `Char.toLower`. -/
def litCI : List Char → Matcher
  | [], s => some ([], s)
  | _ :: _, [] => none
  | p :: ps, c :: cs =>
    if c.toLower == p then
      match litCI ps cs with
      | some (m, r) => some (c :: m, r)
      | none => none
    else none

/-- Greedy `+` over a character class.  In this pattern every `+`-class is
followed either by a character excluded from the class or by the end of the
alternative, so the JavaScript engine never gives characters back: the maximal
run is the unique candidate. -/
def run1 (f : Char → Bool) : Matcher := fun s =>
  if (s.takeWhile f).isEmpty then none else some (s.takeWhile f, s.dropWhile f)

/-- Sequencing of two matchers. -/
def mseq (a b : Matcher) : Matcher := fun s =>
  match a s with
  | none => none
  | some (m1, r1) =>
    match b r1 with
    | none => none
    | some (m2, r2) => some (m1 ++ m2, r2)

/-- Ordered alternation (first branch preferred, as in regex alternation). -/
def malt (a b : Matcher) : Matcher := fun s =>
  match a s with
  | some x => some x
  | none => b s

/-- `https?:\/\/`.  The optional `s` is deterministic here: if `s://` follows
`http` the greedy branch wins, otherwise only `://` can match. -/
def matchHttpScheme : Matcher :=
  mseq (litCI "http".data) (malt (litCI "s://".data) (litCI "://".data))

/-- `data:image\/[^;]+;base64,[A-Za-z0-9+\/=]+` (third top-level alternative,
also the data branch of the markdown group). -/
def matchDataUriBody : Matcher :=
  mseq (litCI "data:image/".data)
    (mseq (run1 clsNonSemi) (mseq (litCI ";base64,".data) (run1 clsB64)))

/-- The markdown group `(https?:\/\/[^\s)]+|data:image\/[^;]+;base64,[A-Za-z0-9+\/=]+)`.
The two branches start with distinct letters, so branch order never changes the
outcome and committing to the first successful branch is faithful. -/
def matchGroupUrl : Matcher :=
  malt (mseq matchHttpScheme (run1 clsUrl1)) matchDataUriBody

/-- `\.(?:png|jpg|jpeg|gif|webp)` tried at the front of the input, extension
branches in source order. -/
def extAt : Matcher := fun s =>
  match s with
  | '.' :: rest =>
    match malt (litCI "png".data) (malt (litCI "jpg".data) (malt (litCI "jpeg".data)
        (malt (litCI "gif".data) (litCI "webp".data)))) rest with
    | some (m, r) => some ('.' :: m, r)
    | none => none
  | _ => none

/-- Backtracking split for `[^\s\[\]()]+\.(?:png|...)`: the greedy run keeps
`m` characters (largest first, at least one) such that `\.ext` matches at the
split point; characters of the run after the extension stay unconsumed. -/
def greedyExtGo (run : List Char) : Nat → Option (List Char × List Char)
  | 0 => none
  | m + 1 =>
    match extAt (run.drop (m + 1)) with
    | some (e, r) => some (run.take (m + 1) ++ e, r)
    | none => greedyExtGo run m

/-- Second top-level alternative: `https?:\/\/[^\s\[\]()]+\.(?:png|jpg|jpeg|gif|webp)`. -/
def matchAlt2 : Matcher := fun s =>
  match matchHttpScheme s with
  | none => none
  | some (sch, r1) =>
    match run1 clsBareUrl r1 with
    | none => none
    | some (run, r2) =>
      match greedyExtGo run run.length with
      | none => none
      | some (consumed, leftover) => some (sch ++ consumed, leftover ++ r2)

/-- The continuation `\]\(` group `\)` of the markdown alternative, tried at
one candidate end position of the lazy `.*?`; returns (consumed, group, rest). -/
def mdClose (s : List Char) : Option (List Char × List Char × List Char) :=
  match litCI "](".data s with
  | none => none
  | some (m1, r1) =>
    match matchGroupUrl r1 with
    | none => none
    | some (g, r2) =>
      match r2 with
      | ')' :: r3 => some (m1 ++ g ++ [')'], g, r3)
      | _ => none

/-- Lazy `.*?` followed by `mdClose`: try the continuation at the current
position first, and only on failure consume one (non line-terminator)
character and retry. -/
def mdLazy : List Char → Option (List Char × List Char × List Char)
  | [] => none
  | c :: cs =>
    match mdClose (c :: cs) with
    | some x => some x
    | none =>
      if dotAny c then
        match mdLazy cs with
        | some (m, g, r) => some (c :: m, g, r)
        | none => none
      else none

/-- First top-level alternative `!\[.*?\]\((...)\)`; returns (span, group, rest). -/
def matchAlt1 (s : List Char) : Option (List Char × List Char × List Char) :=
  match litCI "![".data s with
  | none => none
  | some (m0, r0) =>
    match mdLazy r0 with
    | none => none
    | some (m, g, r) => some (m0 ++ m, g, r)

/-- One regex match: the full span (`match[0]`), the URL the adapter pushes
(`match[1]` when the markdown group captured, else `match[0]`), and whether it
came from the markdown alternative. -/
structure RMatch where
  span : List Char
  url : List Char
  md : Bool
deriving Repr, DecidableEq

/-- Try the three alternatives, in the pattern's order, at the current position. -/
def matchAlt (s : List Char) : Option (RMatch × List Char) :=
  match matchAlt1 s with
  | some (span, g, rest) => some (⟨span, g, true⟩, rest)
  | none =>
    match matchAlt2 s with
    | some (span, rest) => some (⟨span, span, false⟩, rest)
    | none =>
      match matchDataUriBody s with
      | some (span, rest) => some (⟨span, span, false⟩, rest)
      | none => none

/-- Leftmost match: `exec` scans positions left to right and returns the
unmatched gap before the match, the match, and the input after the match. -/
def nextMatch : List Char → Option (List Char × RMatch × List Char)
  | [] => none
  | c :: cs =>
    match matchAlt (c :: cs) with
    | some (m, r) => some ([], m, r)
    | none =>
      match nextMatch cs with
      | some (p, m, r) => some (c :: p, m, r)
      | none => none

/-- The `while ((match = imageUrlRegex.exec(contentStr)) !== null)` loop,
fuel-bounded (each match consumes at least one character, so `s.length` fuel
is always enough). -/
def extractLoopF : Nat → List Char → List (List Char)
  | 0, _ => []
  | f + 1, s =>
    match nextMatch s with
    | none => []
    | some (_, m, rest) => m.url :: extractLoopF f rest

/-- The `imageUrls` array collected by the exec loop (lines 147-159). -/
def imageUrlsOf (s : List Char) : List (List Char) := extractLoopF s.length s

/-- `contentStr.replace(imageUrlRegex, '')`, fuel-bounded. -/
def stripLoopF : Nat → List Char → List Char
  | 0, s => s
  | f + 1, s =>
    match nextMatch s with
    | none => s
    | some (p, _, rest) => p ++ stripLoopF f rest

/-- The stripped content before trimming (line 167). -/
def strippedOf (s : List Char) : List Char := stripLoopF s.length s

/-- JavaScript `String.prototype.trim` over the character list. -/
def jsTrim (s : List Char) : List Char :=
  ((s.dropWhile jsSpace).reverse.dropWhile jsSpace).reverse

/-- Whether `needle` occurs at the front of `hay`. -/
def startsWithL : List Char → List Char → Bool
  | [], _ => true
  | _ :: _, [] => false
  | a :: as, b :: bs => a == b && startsWithL as bs

/-- Whether `needle` occurs anywhere inside `hay` (substring containment). -/
def containsSeg (needle : List Char) : List Char → Bool
  | [] => needle.isEmpty
  | c :: t => startsWithL needle (c :: t) || containsSeg needle t

theorem litCI_split : ∀ (p s m r : List Char), litCI p s = some (m, r) →
    s = m ++ r ∧ m.length = p.length := by
  intro p
  induction p with
  | nil =>
    intro s m r h
    simp only [litCI, Option.some.injEq, Prod.mk.injEq] at h
    obtain ⟨h1, h2⟩ := h
    subst h1; subst h2; simp
  | cons p ps ih =>
    intro s m r h
    cases s with
    | nil => simp [litCI] at h
    | cons c cs =>
      simp only [litCI] at h
      by_cases hc : (c.toLower == p) = true
      · rw [if_pos hc] at h
        cases hl : litCI ps cs with
        | none => rw [hl] at h; exact absurd h (by simp)
        | some pr =>
          obtain ⟨m', r'⟩ := pr
          rw [hl] at h
          simp only [Option.some.injEq, Prod.mk.injEq] at h
          obtain ⟨h1, h2⟩ := h
          subst h1; subst h2
          obtain ⟨ha, hb⟩ := ih cs m' r' hl
          subst ha
          simp [hb]
      · rw [if_neg hc] at h; exact absurd h (by simp)

theorem run1_split (f : Char → Bool) (s m r : List Char) (h : run1 f s = some (m, r)) :
    s = m ++ r ∧ m ≠ [] := by
  simp only [run1] at h
  by_cases he : (s.takeWhile f).isEmpty = true
  · rw [if_pos he] at h; exact absurd h (by simp)
  · rw [if_neg he] at h
    simp only [Option.some.injEq, Prod.mk.injEq] at h
    obtain ⟨h1, h2⟩ := h
    subst h1; subst h2
    refine ⟨(List.takeWhile_append_dropWhile f s).symm, ?_⟩
    simpa [List.isEmpty_iff] using he

theorem mseq_split (a b : Matcher)
    (ha : ∀ s m r, a s = some (m, r) → s = m ++ r)
    (hb : ∀ s m r, b s = some (m, r) → s = m ++ r) :
    ∀ s m r, mseq a b s = some (m, r) → s = m ++ r := by
  intro s m r h
  simp only [mseq] at h
  split at h
  · exact Option.noConfusion h
  · next m1 r1 h1 =>
    split at h
    · exact Option.noConfusion h
    · next m2 r2 h2 =>
      simp only [Option.some.injEq, Prod.mk.injEq] at h
      obtain ⟨hm, hr⟩ := h
      subst hm; subst hr
      rw [ha _ m1 r1 h1, hb r1 m2 r2 h2, List.append_assoc]

theorem malt_split (a b : Matcher)
    (ha : ∀ s m r, a s = some (m, r) → s = m ++ r)
    (hb : ∀ s m r, b s = some (m, r) → s = m ++ r) :
    ∀ s m r, malt a b s = some (m, r) → s = m ++ r := by
  intro s m r h
  simp only [malt] at h
  split at h
  · next x h1 => rw [h] at h1; exact ha s m r h1
  · next h1 => exact hb s m r h

theorem litCI_append (p : List Char) : ∀ s m r, litCI p s = some (m, r) → s = m ++ r :=
  fun s m r h => (litCI_split p s m r h).1

theorem run1_append (f : Char → Bool) : ∀ s m r, run1 f s = some (m, r) → s = m ++ r :=
  fun s m r h => (run1_split f s m r h).1

theorem matchHttpScheme_split : ∀ s m r, matchHttpScheme s = some (m, r) → s = m ++ r :=
  mseq_split _ _ (litCI_append _) (malt_split _ _ (litCI_append _) (litCI_append _))

theorem matchDataUriBody_split : ∀ s m r, matchDataUriBody s = some (m, r) → s = m ++ r :=
  mseq_split _ _ (litCI_append _)
    (mseq_split _ _ (run1_append _)
      (mseq_split _ _ (litCI_append _) (run1_append _)))

theorem matchGroupUrl_split : ∀ s m r, matchGroupUrl s = some (m, r) → s = m ++ r :=
  malt_split _ _ (mseq_split _ _ matchHttpScheme_split (run1_append _)) matchDataUriBody_split

theorem extAt_split : ∀ s m r, extAt s = some (m, r) → s = m ++ r := by
  intro s m r h
  simp only [extAt] at h
  split at h
  · next rest =>
    split at h
    · next m' r' hi =>
      simp only [Option.some.injEq, Prod.mk.injEq] at h
      obtain ⟨hm, hr⟩ := h
      subst hm; subst hr
      have := malt_split _ _ (litCI_append _)
        (malt_split _ _ (litCI_append _) (malt_split _ _ (litCI_append _)
          (malt_split _ _ (litCI_append _) (litCI_append _)))) rest m' r' hi
      rw [this]; rfl
    · exact Option.noConfusion h
  · exact Option.noConfusion h

theorem greedyExtGo_split (run : List Char) :
    ∀ (m : Nat) (c l : List Char), greedyExtGo run m = some (c, l) → run = c ++ l := by
  intro m
  induction m with
  | zero => intro c l h; simp [greedyExtGo] at h
  | succ m ih =>
    intro c l h
    simp only [greedyExtGo] at h
    cases he : extAt (run.drop (m + 1)) with
    | none => rw [he] at h; exact ih c l h
    | some p =>
      obtain ⟨e, r⟩ := p
      rw [he] at h
      simp only [Option.some.injEq, Prod.mk.injEq] at h
      obtain ⟨hc, hl⟩ := h
      subst hc; subst hl
      have hd := extAt_split _ _ _ he
      conv_lhs => rw [← List.take_append_drop (m + 1) run]
      rw [hd, List.append_assoc]

theorem matchAlt2_split (s m r : List Char) (h : matchAlt2 s = some (m, r)) : s = m ++ r := by
  simp only [matchAlt2] at h
  split at h
  · exact Option.noConfusion h
  · next sch r1 h1 =>
    split at h
    · exact Option.noConfusion h
    · next run r2 h2 =>
      split at h
      · exact Option.noConfusion h
      · next consumed leftover h3 =>
        simp only [Option.some.injEq, Prod.mk.injEq] at h
        obtain ⟨hm, hr⟩ := h
        subst hm; subst hr
        rw [matchHttpScheme_split s sch r1 h1, run1_append clsBareUrl r1 run r2 h2,
            greedyExtGo_split run run.length consumed leftover h3]
        simp [List.append_assoc]

theorem mdClose_split (s c g rest : List Char) (h : mdClose s = some (c, g, rest)) :
    s = c ++ rest := by
  simp only [mdClose] at h
  split at h
  · exact Option.noConfusion h
  · next m1 r1 h1 =>
    split at h
    · exact Option.noConfusion h
    · next g' r2 h2 =>
      split at h
      · next r3 =>
        simp only [Option.some.injEq, Prod.mk.injEq] at h
        obtain ⟨hc, hg, hr⟩ := h
        subst hc; subst hg; subst hr
        rw [litCI_append _ s m1 r1 h1, matchGroupUrl_split r1 g' (')' :: r3) h2]
        simp [List.append_assoc]
      · exact Option.noConfusion h

theorem mdLazy_split : ∀ s c g rest, mdLazy s = some (c, g, rest) → s = c ++ rest := by
  intro s
  induction s with
  | nil => intro c g rest h; simp [mdLazy] at h
  | cons ch cs ih =>
    intro c g rest h
    simp only [mdLazy] at h
    split at h
    · next x h1 => rw [h] at h1; exact mdClose_split _ _ _ _ h1
    · next h1 =>
      split at h
      · split at h
        · next c' g' rest' h2 =>
          simp only [Option.some.injEq, Prod.mk.injEq] at h
          obtain ⟨hc, hg, hr⟩ := h
          subst hc; subst hg; subst hr
          rw [List.cons_append, ← ih c' g' rest' h2]
        · exact Option.noConfusion h
      · exact Option.noConfusion h

theorem matchAlt1_split (s c g rest : List Char) (h : matchAlt1 s = some (c, g, rest)) :
    s = c ++ rest ∧ c ≠ [] := by
  simp only [matchAlt1] at h
  split at h
  · exact Option.noConfusion h
  · next m0 r0 h1 =>
    split at h
    · exact Option.noConfusion h
    · next m' g' r' h2 =>
      simp only [Option.some.injEq, Prod.mk.injEq] at h
      obtain ⟨hc, hg, hr⟩ := h
      subst hc; subst hg; subst hr
      obtain ⟨hs, hl⟩ := litCI_split _ _ _ _ h1
      refine ⟨?_, ?_⟩
      · rw [hs, mdLazy_split r0 m' g' r' h2, List.append_assoc]
      · intro hne
        have : m0.length = 2 := hl
        rw [List.append_eq_nil] at hne
        rw [hne.1] at this
        simp at this

theorem matchHttpScheme_ne (s m r : List Char) (h : matchHttpScheme s = some (m, r)) :
    m ≠ [] := by
  simp only [matchHttpScheme, mseq] at h
  split at h
  · exact Option.noConfusion h
  · next m1 r1 h1 =>
    split at h
    · exact Option.noConfusion h
    · next m2 r2 h2 =>
      simp only [Option.some.injEq, Prod.mk.injEq] at h
      obtain ⟨hm, hr⟩ := h
      subst hm
      intro hne
      rw [List.append_eq_nil] at hne
      have := (litCI_split _ _ _ _ h1).2
      rw [hne.1] at this
      simp at this

theorem matchDataUriBody_ne (s m r : List Char) (h : matchDataUriBody s = some (m, r)) :
    m ≠ [] := by
  simp only [matchDataUriBody, mseq] at h
  split at h
  · exact Option.noConfusion h
  · next m1 r1 h1 =>
    split at h
    · exact Option.noConfusion h
    · next m2 r2 h2 =>
      simp only [Option.some.injEq, Prod.mk.injEq] at h
      obtain ⟨hm, hr⟩ := h
      subst hm
      intro hne
      rw [List.append_eq_nil] at hne
      have := (litCI_split _ _ _ _ h1).2
      rw [hne.1] at this
      simp at this

theorem matchAlt_split (s : List Char) (rm : RMatch) (rest : List Char)
    (h : matchAlt s = some (rm, rest)) : s = rm.span ++ rest ∧ rm.span ≠ [] := by
  simp only [matchAlt] at h
  split at h
  · next span g r1 h1 =>
    simp only [Option.some.injEq, Prod.mk.injEq] at h
    obtain ⟨hm, hr⟩ := h
    subst hm
    rw [hr] at h1
    obtain ⟨ha, hb⟩ := matchAlt1_split s span g rest h1
    exact ⟨ha, hb⟩
  · next h1 =>
    split at h
    · next span r1 h2 =>
      simp only [Option.some.injEq, Prod.mk.injEq] at h
      obtain ⟨hm, hr⟩ := h
      subst hm
      rw [hr] at h2
      refine ⟨matchAlt2_split s span rest h2, ?_⟩
      show span ≠ []
      simp only [matchAlt2] at h2
      split at h2
      · exact Option.noConfusion h2
      · next sch rr1 hsch =>
        split at h2
        · exact Option.noConfusion h2
        · next run rr2 hrun =>
          split at h2
          · exact Option.noConfusion h2
          · next consumed leftover hg =>
            simp only [Option.some.injEq, Prod.mk.injEq] at h2
            obtain ⟨hm2, _⟩ := h2
            rw [← hm2]
            intro hne
            rw [List.append_eq_nil] at hne
            exact matchHttpScheme_ne s sch rr1 hsch hne.1
    · next h2 =>
      split at h
      · next span r1 h3 =>
        simp only [Option.some.injEq, Prod.mk.injEq] at h
        obtain ⟨hm, hr⟩ := h
        subst hm
        rw [hr] at h3
        exact ⟨matchDataUriBody_split s span rest h3, matchDataUriBody_ne s span rest h3⟩
      · exact Option.noConfusion h

theorem nextMatch_split : ∀ (s p : List Char) (m : RMatch) (rest : List Char),
    nextMatch s = some (p, m, rest) → s = p ++ m.span ++ rest ∧ m.span ≠ [] := by
  intro s
  induction s with
  | nil => intro p m rest h; simp [nextMatch] at h
  | cons c cs ih =>
    intro p m rest h
    simp only [nextMatch] at h
    split at h
    · next m' r' h1 =>
      simp only [Option.some.injEq, Prod.mk.injEq] at h
      obtain ⟨hp, hm, hr⟩ := h
      subst hp; subst hm; subst hr
      obtain ⟨ha, hb⟩ := matchAlt_split (c :: cs) m' r' h1
      simpa using ⟨ha, hb⟩
    · next h1 =>
      split at h
      · next p' m' r' h2 =>
        simp only [Option.some.injEq, Prod.mk.injEq] at h
        obtain ⟨hp, hm, hr⟩ := h
        subst hp; subst hm; subst hr
        obtain ⟨ha, hb⟩ := ih p' m' r' h2
        refine ⟨?_, hb⟩
        simp only [List.cons_append]
        rw [← ha]
      · exact Option.noConfusion h

theorem nextMatch_rest_lt (s p : List Char) (m : RMatch) (rest : List Char)
    (h : nextMatch s = some (p, m, rest)) : rest.length < s.length := by
  obtain ⟨ha, hb⟩ := nextMatch_split s p m rest h
  have hpos : 0 < m.span.length := List.length_pos.mpr hb
  have hlen : s.length = p.length + m.span.length + rest.length := by
    rw [ha]; simp [List.length_append]; omega
  omega

theorem extractLoopF_eq (f : Nat) : ∀ s : List Char, s.length ≤ f →
    extractLoopF f s = imageUrlsOf s := by
  induction f using Nat.strong_induction_on with
  | _ f ih =>
    intro s hs
    match f with
    | 0 =>
      have : s = [] := List.eq_nil_of_length_eq_zero (Nat.le_zero.mp hs)
      subst this
      rfl
    | f' + 1 =>
      cases h : nextMatch s with
      | none =>
        cases s with
        | nil => rfl
        | cons c cs =>
          simp only [extractLoopF, imageUrlsOf, List.length_cons, h]
      | some t =>
        obtain ⟨p, m, rest⟩ := t
        have hlt := nextMatch_rest_lt s p m rest h
        cases s with
        | nil => simp [nextMatch] at h
        | cons c cs =>
          simp only [extractLoopF, imageUrlsOf, List.length_cons, h]
          have h1 : extractLoopF f' rest = imageUrlsOf rest :=
            ih f' (Nat.lt_succ_self f') rest (by
              simp only [List.length_cons] at hlt hs
              omega)
          have h2 : extractLoopF cs.length rest = imageUrlsOf rest :=
            ih cs.length (by simp only [List.length_cons] at hs; omega) rest (by
              simp only [List.length_cons] at hlt
              omega)
          rw [h1, h2]

theorem stripLoopF_eq (f : Nat) : ∀ s : List Char, s.length ≤ f →
    stripLoopF f s = strippedOf s := by
  induction f using Nat.strong_induction_on with
  | _ f ih =>
    intro s hs
    match f with
    | 0 =>
      have : s = [] := List.eq_nil_of_length_eq_zero (Nat.le_zero.mp hs)
      subst this
      rfl
    | f' + 1 =>
      cases h : nextMatch s with
      | none =>
        cases s with
        | nil => rfl
        | cons c cs =>
          simp only [stripLoopF, strippedOf, List.length_cons, h]
      | some t =>
        obtain ⟨p, m, rest⟩ := t
        have hlt := nextMatch_rest_lt s p m rest h
        cases s with
        | nil => simp [nextMatch] at h
        | cons c cs =>
          simp only [stripLoopF, strippedOf, List.length_cons, h]
          have h1 : stripLoopF f' rest = strippedOf rest :=
            ih f' (Nat.lt_succ_self f') rest (by
              simp only [List.length_cons] at hlt hs
              omega)
          have h2 : stripLoopF cs.length rest = strippedOf rest :=
            ih cs.length (by simp only [List.length_cons] at hs; omega) rest (by
              simp only [List.length_cons] at hlt
              omega)
          rw [h1, h2]

theorem imageUrlsOf_cons (s p : List Char) (m : RMatch) (rest : List Char)
    (h : nextMatch s = some (p, m, rest)) :
    imageUrlsOf s = m.url :: imageUrlsOf rest := by
  cases s with
  | nil => simp [nextMatch] at h
  | cons c cs =>
    have hlt := nextMatch_rest_lt _ p m rest h
    simp only [imageUrlsOf, List.length_cons, extractLoopF, h]
    rw [extractLoopF_eq cs.length rest (by
      simp only [List.length_cons] at hlt; omega),
      extractLoopF_eq rest.length rest (Nat.le_refl _)]

theorem imageUrlsOf_none (s : List Char) (h : nextMatch s = none) :
    imageUrlsOf s = [] := by
  cases s with
  | nil => rfl
  | cons c cs => simp only [imageUrlsOf, List.length_cons, extractLoopF, h]

theorem strippedOf_cons (s p : List Char) (m : RMatch) (rest : List Char)
    (h : nextMatch s = some (p, m, rest)) :
    strippedOf s = p ++ strippedOf rest := by
  cases s with
  | nil => simp [nextMatch] at h
  | cons c cs =>
    have hlt := nextMatch_rest_lt _ p m rest h
    simp only [strippedOf, List.length_cons, stripLoopF, h]
    rw [stripLoopF_eq cs.length rest (by
      simp only [List.length_cons] at hlt; omega),
      stripLoopF_eq rest.length rest (Nat.le_refl _)]

theorem strippedOf_none (s : List Char) (h : nextMatch s = none) :
    strippedOf s = s := by
  cases s with
  | nil => rfl
  | cons c cs => simp only [strippedOf, List.length_cons, stripLoopF, h]


/-- Modelled from the spec: the `GeneratedContent` result type imported from
`../types` (whose definition is not under `src/`): three optional fields —
image reference, residual text, video reference. -/
structure GeneratedContent where
  imageUrl : Option String
  text : Option String
  videoUrl : Option String := none
deriving Repr, DecidableEq

/-- Error message of line 174 (no image and no residual text). -/
def noImageMsg : String := "模型没有返回图片。请尝试不同的图片或提示词。"

/-- Error message of line 176: the residual text quoted inside a localized wrapper. -/
def modelRespMsg (t : String) : String := "模型响应: \"" ++ t ++ "\""

/-- Lines 141-181: run the combined regex over the response content, keep the
first collected URL as the image reference, strip all matches and trim for the
residual text (empty residual is `none`), and fail when no URL was collected. -/
def processContent (contentStr : String) : Except String GeneratedContent :=
  let urls := imageUrlsOf contentStr.data
  let textContent := jsTrim (strippedOf contentStr.data)
  let gc : GeneratedContent :=
    { imageUrl := urls.head?.map (fun l => String.mk l)
      text := if textContent.isEmpty then none else some (String.mk textContent)
      videoUrl := none }
  match gc.imageUrl with
  | none =>
    Except.error (match gc.text with
                  | some t => modelRespMsg t
                  | none => noImageMsg)
  | some _ => Except.ok gc

/-- Vendor error object `{ message?, status?, code? }` as consumed by the adapter. -/
structure ErrObj where
  message : Option String := none
  status : Option String := none
  code : Option Int := none
deriving Repr, DecidableEq

/-- `choice.message`: carries the content string, or `undefined`. -/
structure ChoiceMessage where
  content : Option String := none
deriving Repr, DecidableEq

/-- One element of the `choices` array. -/
structure ApiChoice where
  message : Option ChoiceMessage := none
deriving Repr, DecidableEq

/-- The JSON view of a response body, restricted to the fields the adapter
reads: `error`, `message` (error bodies) and `choices` (success bodies). -/
structure BodyJsonView where
  error : Option ErrObj := none
  message : Option String := none
  choices : Option (List ApiChoice) := none
deriving Repr, DecidableEq

/-- A fetch `Response` as far as the adapter observes it.  `json = none` means
the body text is not valid JSON, so `response.json()` rejects — and, per the
Fetch standard, the body is consumed by that attempt, so a later
`response.text()` on the same response also rejects. -/
structure HttpResponse where
  ok : Bool
  status : Nat
  statusText : String
  raw : String
  json : Option BodyJsonView
deriving Repr, DecidableEq

/-- Message of the `TypeError` raised by `response.text()` once the body was
already consumed by `response.json()` (exact wording is engine-dependent;
Chromium's is used — only the fact that it is not derived from the body
matters below). -/
def bodyUsedErrorMsg : String :=
  "Failed to execute 'text' on 'Response': body stream already read"

/-- Message of the `SyntaxError` raised by `response.json()` on a body that is
not valid JSON (engine-dependent wording). -/
def jsonSyntaxErrorMsg : String := "Unexpected end of JSON input"

/-- The `LaoZhang API 请求失败 (<status>): ` stem of line 114. -/
def failBase (status : Nat) : String :=
  "LaoZhang API 请求失败 (" ++ toString status ++ "): "

/-- Lines 119-124 fallback: `errorData.message` if truthy, else the initial
status-line message. -/
def httpErrorFallback (r : HttpResponse) (j : BodyJsonView) : String :=
  match j.message with
  | some m => if m = "" then failBase r.status ++ r.statusText else failBase r.status ++ m
  | none => failBase r.status ++ r.statusText

/-- Lines 113-126: message of the error thrown on a non-success status.  When
the body parses as JSON, prefer `error.message`, then `message`, then the
status line.  When it does not parse, `response.json()` throws, the catch
block's `response.text()` finds the body already consumed and throws a
`TypeError`, which is what actually propagates. -/
def httpErrorMsg (r : HttpResponse) : String :=
  match r.json with
  | some j =>
    match j.error with
    | some e =>
      match e.message with
      | some m => if m = "" then httpErrorFallback r j else failBase r.status ++ m
      | none => httpErrorFallback r j
    | none => httpErrorFallback r j
  | none => bodyUsedErrorMsg

/-- Error message of line 133 (missing or empty `choices`). -/
def malformedChoicesMsg : String := "LaoZhang API 没有返回有效数据。"

/-- Error message of line 138 (missing `message` or undefined `content`). -/
def malformedMessageMsg : String := "LaoZhang API 返回的数据格式不符合预期。"

/-- The try-block of `editImage` (lines 104-181) from the point the response
arrives: HTTP status check, malformed-response checks, content parsing. -/
def editImageInner (r : HttpResponse) : Except String GeneratedContent :=
  if r.ok then
    match r.json with
    | none => Except.error jsonSyntaxErrorMsg
    | some j =>
      match j.choices with
      | none => Except.error malformedChoicesMsg
      | some [] => Except.error malformedChoicesMsg
      | some (choice :: _) =>
        match choice.message with
        | none => Except.error malformedMessageMsg
        | some msg =>
          match msg.content with
          | none => Except.error malformedMessageMsg
          | some contentStr => processContent contentStr
  else Except.error (httpErrorMsg r)

/-- Shape of `JSON.parse(errorMessage)` as read by the outer catch. -/
structure OuterErrShape where
  error : Option ErrObj := none
deriving Repr, DecidableEq

/-- Localized rate-limit message of line 191. -/
def rateLimitMsg : String := "您可能已超过请求限制。请稍等片刻后再试。"

/-- Localized transient-server message of line 193. -/
def serverErrorMsg : String := "发生了意外的服务器错误。这可能是临时问题。请稍后再试。"

/-- Lines 185-199: the outer catch re-parses the thrown message as JSON
(`parse` stands for `JSON.parse`, supplied externally: `none` is a parse
failure, swallowed by the inner catch) and remaps recognized vendor shapes. -/
def normalizeMsg (parse : String → Option OuterErrShape) (m : String) : String :=
  match parse m with
  | none => m
  | some p =>
    match p.error with
    | none => m
    | some e =>
      match e.message with
      | none => m
      | some em =>
        if em = "" then m
        else if e.status = some "RESOURCE_EXHAUSTED" then rateLimitMsg
        else if e.code = some 500 || e.status = some "UNKNOWN" then serverErrorMsg
        else em

/-- The settled outcome of an `editImage` call given the HTTP response: every
error thrown in the try block is an `Error`, so the outer catch rethrows it
with its message normalized. -/
def editImageOutcome (parse : String → Option OuterErrShape) (r : HttpResponse) :
    Except String GeneratedContent :=
  match editImageInner r with
  | Except.ok gc => Except.ok gc
  | Except.error m => Except.error (normalizeMsg parse m)

/-- Optional secondary image argument. -/
structure SecondaryImage where
  base64 : String
  mimeType : String
deriving Repr, DecidableEq

/-- One content block of the request message (lines 55-91). -/
inductive ContentBlock where
  | text (t : String)
  | image (url : String)
deriving Repr, DecidableEq

/-- Inline data reference `data:<mime>;base64,<data>`. -/
def dataUrl (mimeType b64 : String) : String :=
  "data:" ++ mimeType ++ ";base64," ++ b64

/-- The rewritten instruction of line 72 (note the double quotes around the
original prompt in the source template literal). -/
def maskedPrompt (prompt : String) : String :=
  "Apply the following instruction only to the masked area of the image: \"" ++
    prompt ++ "\". Preserve the unmasked area."

/-- Lines 52-91: the ordered content list.  `if (maskBase64)` is JavaScript
truthiness, so an empty-string mask behaves like no mask. -/
def buildContent (base64ImageData mimeType prompt : String)
    (maskBase64 : Option String) (secondaryImage : Option SecondaryImage) :
    List ContentBlock :=
  let base := [ContentBlock.text prompt,
               ContentBlock.image (dataUrl mimeType base64ImageData)]
  let withMask :=
    match maskBase64 with
    | some mask =>
      if mask.isEmpty then base
      else [ContentBlock.text (maskedPrompt prompt),
            ContentBlock.image (dataUrl mimeType base64ImageData),
            ContentBlock.image (dataUrl "image/png" mask)]
    | none => base
  match secondaryImage with
  | some sec => withMask ++ [ContentBlock.image (dataUrl sec.mimeType sec.base64)]
  | none => withMask

/-- Hex digit for JSON string escapes. -/
def hexDigitChar (n : Nat) : Char :=
  if n < 10 then Char.ofNat (48 + n) else Char.ofNat (87 + n)

/-- `JSON.stringify` escaping of one character. -/
def jsonEscapeChar (c : Char) : String :=
  if c = '"' then "\\\""
  else if c = '\\' then "\\\\"
  else if c = '\n' then "\\n"
  else if c = '\r' then "\\r"
  else if c = '\t' then "\\t"
  else if c = '\x08' then "\\b"
  else if c = '\x0c' then "\\f"
  else if c.toNat < 32 then
    "\\u00" ++ String.mk [hexDigitChar (c.toNat / 16), hexDigitChar (c.toNat % 16)]
  else String.mk [c]

/-- `JSON.stringify` of a string value. -/
def jsonStr (s : String) : String :=
  "\"" ++ String.join (s.data.map jsonEscapeChar) ++ "\""

/-- Serialization of one content block, key order as constructed. -/
def serializeBlock : ContentBlock → String
  | ContentBlock.text t =>
    "\x7b\"type\":\"text\",\"text\":" ++ jsonStr t ++ "\x7d"
  | ContentBlock.image u =>
    "\x7b\"type\":\"image_url\",\"image_url\":\x7b\"url\":" ++ jsonStr u ++ "\x7d\x7d"

/-- Lines 93-110: `JSON.stringify(requestBody)` — the exact byte string posted
as the request body. -/
def serializeRequestBody (base64ImageData mimeType prompt : String)
    (maskBase64 : Option String) (secondaryImage : Option SecondaryImage) : String :=
  "\x7b\"model\":\"gemini-2.5-flash-image-preview\",\"stream\":false," ++
  "\"messages\":[\x7b\"role\":\"user\",\"content\":[" ++
  String.intercalate ","
    ((buildContent base64ImageData mimeType prompt maskBase64 secondaryImage).map serializeBlock) ++
  "]\x7d]\x7d"

/-- A full `editImage` call: the serialized request body it posts, and the
outcome it settles with once the HTTP response `r` arrives. -/
def editImage (parse : String → Option OuterErrShape)
    (base64ImageData mimeType prompt : String) (maskBase64 : Option String)
    (secondaryImage : Option SecondaryImage) (r : HttpResponse) :
    String × Except String GeneratedContent :=
  (serializeRequestBody base64ImageData mimeType prompt maskBase64 secondaryImage,
   editImageOutcome parse r)

/-- Optional input image of `generateVideo`. -/
structure VideoImage where
  data : String
  mimeType : String
deriving Repr, DecidableEq

/-- Disclaimer appended on line 249. -/
def videoDisclaimer : String :=
  "\n\n注意：LaoZhang API 不直接支持视频生成，这里返回的是关键帧图像。"

/-- Wrapper message of line 255. -/
def videoFailMsg (m : String) : String := "视频生成失败: " ++ m

/-- JavaScript `a || b` on an optional string (empty string is falsy). -/
def jsOrStr (o : Option String) (d : String) : String :=
  match o with
  | some s => if s.isEmpty then d else s
  | none => d

/-- JavaScript `+` between a nullable string and a string: `null` is coerced
to the four characters `"null"`. -/
def jsAddNullable (t : Option String) (s : String) : String :=
  match t with
  | some t0 => t0 ++ s
  | none => "null" ++ s

/-- Line 226: the video prompt (empty aspect ratio is falsy and contributes
nothing after the trailing space). -/
def videoPromptOf (prompt : String) (aspectRatio : Option String) : String :=
  "Create a video-like image sequence for: " ++ prompt ++ ". " ++
    (match aspectRatio with
     | some ar => if ar.isEmpty then "" else "Aspect ratio: " ++ ar
     | none => "")

/-- Lines 213-257: `generateVideo` delegates to `editImage` and repackages.
The first component records the successive values passed to `onProgress`; on a
delegate failure the 70 and 100 checkpoints are never reached and the error is
rewrapped. -/
def generateVideo (parse : String → Option OuterErrShape) (prompt : String)
    (image : Option VideoImage) (aspectRatio : Option String) (r : HttpResponse) :
    List Nat × Except String GeneratedContent :=
  let vp := videoPromptOf prompt aspectRatio
  let outcome := (editImage parse (jsOrStr (image.map (fun i => i.data)) "")
      (jsOrStr (image.map (fun i => i.mimeType)) "image/jpeg") vp none none r).2
  match outcome with
  | Except.ok res =>
    ([10, 30, 70, 100],
     Except.ok { imageUrl := res.imageUrl,
                 text := some (jsAddNullable res.text videoDisclaimer),
                 videoUrl := some "data:video/mp4;base64," })
  | Except.error m => ([10, 30], Except.error (videoFailMsg m))

theorem normalizeMsg_id (parse : String → Option OuterErrShape) (m : String)
    (h : parse m = none) : normalizeMsg parse m = m := by
  simp only [normalizeMsg, h]

theorem editImageInner_content (r : HttpResponse) (j : BodyJsonView)
    (choice : ApiChoice) (rest0 : List ApiChoice) (msgv : ChoiceMessage)
    (contentStr : String) (hok : r.ok = true) (hj : r.json = some j)
    (hch : j.choices = some (choice :: rest0)) (hmsg : choice.message = some msgv)
    (hc : msgv.content = some contentStr) :
    editImageInner r = processContent contentStr := by
  simp only [editImageInner, hok, hj, hch, hmsg, hc, if_true]

theorem editImageOutcome_of_ok (parse : String → Option OuterErrShape)
    (r : HttpResponse) (gc : GeneratedContent) (h : editImageInner r = Except.ok gc) :
    editImageOutcome parse r = Except.ok gc := by
  simp only [editImageOutcome, h]

theorem editImageOutcome_of_error (parse : String → Option OuterErrShape)
    (r : HttpResponse) (m : String) (h : editImageInner r = Except.error m) :
    editImageOutcome parse r = Except.error (normalizeMsg parse m) := by
  simp only [editImageOutcome, h]

theorem modelRespMsg_head (t : String) : (modelRespMsg t).data.head? = some '模' := by
  show (("模型响应: \"" ++ t ++ "\"")).data.head? = some '模'
  rw [String.data_append, String.data_append,
      show ("模型响应: \"").data = '模' :: "型响应: \"".data from rfl]
  simp

theorem strNe_of_head (a b : String) (h : a.data.head? ≠ b.data.head?) : a ≠ b :=
  fun he => h (by rw [he])

theorem modelRespMsg_ne_choices (t : String) : modelRespMsg t ≠ malformedChoicesMsg :=
  strNe_of_head _ _ (by rw [modelRespMsg_head]; decide)

theorem modelRespMsg_ne_message (t : String) : modelRespMsg t ≠ malformedMessageMsg :=
  strNe_of_head _ _ (by rw [modelRespMsg_head]; decide)

theorem processContent_error_shape (c e : String) (h : processContent c = Except.error e) :
    (∃ t, e = modelRespMsg t) ∨ e = noImageMsg := by
  simp only [processContent] at h
  split at h
  · split at h
    · next t ht =>
      left
      refine ⟨t, ?_⟩
      have := h.symm
      simp only [Except.error.injEq] at this
      exact this
    · next ht =>
      right
      have hx := h.symm
      simp only [Except.error.injEq] at hx
      exact hx
  · exact Except.noConfusion h

theorem processContent_with_match (contentStr : String) (u0 : List Char)
    (tlu : List (List Char)) (hu : imageUrlsOf contentStr.data = u0 :: tlu) :
    processContent contentStr = Except.ok
      { imageUrl := some (String.mk u0),
        text := if (jsTrim (strippedOf contentStr.data)).isEmpty then none
                else some (String.mk (jsTrim (strippedOf contentStr.data))),
        videoUrl := none } := by
  simp [processContent, hu]

/-- C1: the claim says a non-success response with body
`\x7b"error":\x7b"message":"X","status":"RESOURCE_EXHAUSTED"\x7d\x7d` rejects with
exactly the localized rate-limit message and without "X".  The code instead
rejects with the prefixed vendor message: the inner handler has already
rewritten the message to `LaoZhang API 请求失败 (429): X`, which no longer
parses as JSON, so the outer `RESOURCE_EXHAUSTED` remap (lines 188-196) never
fires for HTTP errors.  This theorem evaluates the adapter at the claim's
input: the final message keeps "X" and is not the rate-limit message. -/
theorem c1_rate_limit_not_localized :
    editImageOutcome (fun _ => none)
      { ok := false, status := 429, statusText := "Too Many Requests",
        raw := "\x7b\"error\":\x7b\"message\":\"X\",\"status\":\"RESOURCE_EXHAUSTED\"\x7d\x7d",
        json := some { error := some { message := some "X",
                                       status := some "RESOURCE_EXHAUSTED" } } }
      = Except.error "LaoZhang API 请求失败 (429): X" ∧
    ("LaoZhang API 请求失败 (429): X" : String) ≠ rateLimitMsg ∧
    containsSeg "X".data "LaoZhang API 请求失败 (429): X".data = true :=
  ⟨rfl, by decide, by decide⟩

/-- C2 counterexample: for response content `I cannot do that` (no image
reference, non-empty residual text) the adapter rejects with the wrapped
message `模型响应: "I cannot do that"`, which is not the residual text
verbatim. -/
theorem c2_counterexample :
    editImageOutcome (fun _ => none)
      { ok := true, status := 200, statusText := "OK", raw := "",
        json := some
          { choices := some [{ message := some { content := some "I cannot do that" } }] } }
      = Except.error "模型响应: \"I cannot do that\"" ∧
    ("模型响应: \"I cannot do that\"" : String) ≠ "I cannot do that" :=
  ⟨rfl, by decide⟩

/-- C2 (amended): for every successful-status response whose content contains
no image reference and has non-empty residual text after trimming, the call
rejects and the error message is the residual text quoted inside the localized
wrapper `模型响应: "<text>"` (not the residual text verbatim). -/
theorem c2_amended_residual_wrapped (parse : String → Option OuterErrShape)
    (r : HttpResponse) (j : BodyJsonView) (choice : ApiChoice)
    (rest0 : List ApiChoice) (msgv : ChoiceMessage) (contentStr : String)
    (hok : r.ok = true) (hj : r.json = some j)
    (hch : j.choices = some (choice :: rest0)) (hmsg : choice.message = some msgv)
    (hc : msgv.content = some contentStr)
    (hnone : nextMatch contentStr.data = none)
    (hne : jsTrim contentStr.data ≠ [])
    (hp : parse (modelRespMsg (String.mk (jsTrim contentStr.data))) = none) :
    editImageOutcome parse r =
      Except.error (modelRespMsg (String.mk (jsTrim contentStr.data))) := by
  have hinner := editImageInner_content r j choice rest0 msgv contentStr hok hj hch hmsg hc
  have hu : imageUrlsOf contentStr.data = [] := imageUrlsOf_none _ hnone
  have hst : strippedOf contentStr.data = contentStr.data := strippedOf_none _ hnone
  have hne' : (jsTrim contentStr.data).isEmpty = false := by
    cases hjt : jsTrim contentStr.data with
    | nil => exact absurd hjt hne
    | cons a l => rfl
  have hpc : processContent contentStr =
      Except.error (modelRespMsg (String.mk (jsTrim contentStr.data))) := by
    simp [processContent, hu, hst, hne']
  rw [editImageOutcome_of_error parse r _ (hinner.trans hpc),
      normalizeMsg_id parse _ hp]

/-- C2 amended, witnessed at content `I cannot do that`. -/
theorem c2_amended_residual_wrapped_witness :
    editImageOutcome (fun _ => none)
      { ok := true, status := 200, statusText := "OK", raw := "",
        json := some
          { choices := some [{ message := some { content := some "I cannot do that" } }] } }
      = Except.error (modelRespMsg (String.mk (jsTrim "I cannot do that".data))) :=
  c2_amended_residual_wrapped (fun _ => none)
    { ok := true, status := 200, statusText := "OK", raw := "",
      json := some
        { choices := some [{ message := some { content := some "I cannot do that" } }] } }
    { choices := some [{ message := some { content := some "I cannot do that" } }] }
    { message := some { content := some "I cannot do that" } } []
    { content := some "I cannot do that" } "I cannot do that"
    rfl rfl rfl rfl rfl rfl (by decide) rfl

/-- C3: the claim says a non-success response with a non-JSON body rejects
with a message containing the raw body text.  In the Fetch API the failed
`response.json()` has already consumed the body, so the fallback
`response.text()` throws a `TypeError` instead; the adapter rejects with that
TypeError's message and the raw body text is lost.  Evaluated at a concrete
non-JSON body. -/
theorem c3_raw_body_lost :
    editImageOutcome (fun _ => none)
      { ok := false, status := 502, statusText := "Bad Gateway",
        raw := "Service temporarily unavailable", json := none }
      = Except.error bodyUsedErrorMsg ∧
    containsSeg "Service temporarily unavailable".data bodyUsedErrorMsg.data = false :=
  ⟨rfl, by decide⟩

/-- C5 (amended): the request content list is ordered text, primary image,
mask image (PNG framing), secondary image (own MIME type); with a (truthy)
mask the text block is rewritten to
`Apply the following instruction only to the masked area of the image:
"<original instruction>". Preserve the unmasked area.` — with double quotes
around the original instruction, not single quotes as the claim stated. -/
theorem c5_request_block_order (b mt p : String) (mask : Option String)
    (sec : Option SecondaryImage) :
    buildContent b mt p mask sec =
      [ContentBlock.text (match mask with
         | some mk0 => if mk0.isEmpty then p else maskedPrompt p
         | none => p),
       ContentBlock.image (dataUrl mt b)] ++
      (match mask with
       | some mk0 =>
         if mk0.isEmpty then [] else [ContentBlock.image (dataUrl "image/png" mk0)]
       | none => []) ++
      (match sec with
       | some s0 => [ContentBlock.image (dataUrl s0.mimeType s0.base64)]
       | none => []) := by
  cases mask with
  | none => cases sec <;> simp [buildContent]
  | some mk0 =>
    cases sec <;> by_cases hm : mk0.isEmpty = true <;> simp [buildContent, hm]

/-- C5 counterexample: with a mask supplied, the text block is not the
single-quoted rewrite stated by the claim (the source template uses double
quotes). -/
theorem c5_counterexample :
    (buildContent "d" "image/jpeg" "Make it red" (some "m") none).head? ≠
      some (ContentBlock.text
        ("Apply the following instruction only to the masked area of the image: " ++
         "'Make it red'. Preserve the unmasked area.")) := by
  decide

/-- C9: request construction is deterministic — two calls with identical
inputs serialize to byte-identical JSON request bodies. -/
theorem c9_request_deterministic (b1 mt1 p1 b2 mt2 p2 : String)
    (mk1 mk2 : Option String) (s1 s2 : Option SecondaryImage)
    (h1 : b1 = b2) (h2 : mt1 = mt2) (h3 : p1 = p2) (h4 : mk1 = mk2) (h5 : s1 = s2) :
    serializeRequestBody b1 mt1 p1 mk1 s1 = serializeRequestBody b2 mt2 p2 mk2 s2 := by
  rw [h1, h2, h3, h4, h5]

/-- C9 witnessed at a concrete request. -/
theorem c9_request_deterministic_witness :
    serializeRequestBody "aW1n" "image/png" "sharpen" none none =
    serializeRequestBody "aW1n" "image/png" "sharpen" none none :=
  c9_request_deterministic "aW1n" "image/png" "sharpen" "aW1n" "image/png" "sharpen"
    none none none none rfl rfl rfl rfl rfl

/-- C6: for a successful response whose content holds exactly one image
reference, matched by the markdown alternative, the result's image reference
is that reference's captured URL, and the residual text is the content with
the matched construct removed and trimmed — reported as `none` when empty. -/
theorem c6_single_markdown_ref (parse : String → Option OuterErrShape)
    (r : HttpResponse) (j : BodyJsonView) (choice : ApiChoice)
    (rest0 : List ApiChoice) (msgv : ChoiceMessage) (contentStr : String)
    (g : List Char) (m : RMatch) (tl : List Char)
    (hok : r.ok = true) (hj : r.json = some j)
    (hch : j.choices = some (choice :: rest0)) (hmsg : choice.message = some msgv)
    (hc : msgv.content = some contentStr)
    (h1 : nextMatch contentStr.data = some (g, m, tl))
    (h2 : nextMatch tl = none) (hmd : m.md = true) :
    contentStr.data = g ++ m.span ++ tl ∧
    editImageOutcome parse r = Except.ok
      { imageUrl := some (String.mk m.url),
        text := if (jsTrim (g ++ tl)).isEmpty then none
                else some (String.mk (jsTrim (g ++ tl))),
        videoUrl := none } := by
  have hdecomp := (nextMatch_split _ _ _ _ h1).1
  have hu : imageUrlsOf contentStr.data = m.url :: imageUrlsOf tl :=
    imageUrlsOf_cons _ _ _ _ h1
  have hstrip : strippedOf contentStr.data = g ++ tl := by
    rw [strippedOf_cons _ _ _ _ h1, strippedOf_none _ h2]
  refine ⟨hdecomp, ?_⟩
  have hinner := editImageInner_content r j choice rest0 msgv contentStr hok hj hch hmsg hc
  have hpc := processContent_with_match contentStr m.url (imageUrlsOf tl) hu
  rw [hstrip] at hpc
  exact editImageOutcome_of_ok parse r _ (hinner.trans hpc)

/-- C6 witnessed at content `Look ![a](https://x.io/p) ok`. -/
theorem c6_single_markdown_ref_witness :
    "Look ![a](https://x.io/p) ok".data =
      "Look ".data ++ "![a](https://x.io/p)".data ++ " ok".data ∧
    editImageOutcome (fun _ => none)
      { ok := true, status := 200, statusText := "OK", raw := "",
        json := some
          { choices := some
              [{ message := some { content := some "Look ![a](https://x.io/p) ok" } }] } }
      = Except.ok
        { imageUrl := some (String.mk "https://x.io/p".data),
          text := if (jsTrim ("Look ".data ++ " ok".data)).isEmpty then none
                  else some (String.mk (jsTrim ("Look ".data ++ " ok".data))),
          videoUrl := none } :=
  c6_single_markdown_ref (fun _ => none)
    { ok := true, status := 200, statusText := "OK", raw := "",
      json := some
        { choices := some
            [{ message := some { content := some "Look ![a](https://x.io/p) ok" } }] } }
    { choices := some
        [{ message := some { content := some "Look ![a](https://x.io/p) ok" } }] }
    { message := some { content := some "Look ![a](https://x.io/p) ok" } } []
    { content := some "Look ![a](https://x.io/p) ok" } "Look ![a](https://x.io/p) ok"
    "Look ".data ⟨"![a](https://x.io/p)".data, "https://x.io/p".data, true⟩ " ok".data
    rfl rfl rfl rfl rfl rfl rfl rfl

/-- C4: for a successful response whose content holds two or more image
references, the scan decomposes the content into gaps and match spans; the
collected URLs list every match left to right; stripping removes every matched
span (the gaps alone survive); and the result's image reference is exactly the
first match's URL — the later matches are discarded from the result. -/
theorem c4_first_match_wins (parse : String → Option OuterErrShape)
    (r : HttpResponse) (j : BodyJsonView) (choice : ApiChoice)
    (rest0 : List ApiChoice) (msgv : ChoiceMessage) (contentStr : String)
    (g1 : List Char) (m1 : RMatch) (r1 : List Char)
    (g2 : List Char) (m2 : RMatch) (r2 : List Char)
    (hok : r.ok = true) (hj : r.json = some j)
    (hch : j.choices = some (choice :: rest0)) (hmsg : choice.message = some msgv)
    (hc : msgv.content = some contentStr)
    (h1 : nextMatch contentStr.data = some (g1, m1, r1))
    (h2 : nextMatch r1 = some (g2, m2, r2)) :
    contentStr.data = g1 ++ m1.span ++ (g2 ++ m2.span ++ r2) ∧
    imageUrlsOf contentStr.data = m1.url :: m2.url :: imageUrlsOf r2 ∧
    strippedOf contentStr.data = g1 ++ (g2 ++ strippedOf r2) ∧
    editImageOutcome parse r = Except.ok
      { imageUrl := some (String.mk m1.url),
        text := if (jsTrim (g1 ++ (g2 ++ strippedOf r2))).isEmpty then none
                else some (String.mk (jsTrim (g1 ++ (g2 ++ strippedOf r2)))),
        videoUrl := none } := by
  have hd1 := (nextMatch_split _ _ _ _ h1).1
  have hd2 := (nextMatch_split _ _ _ _ h2).1
  have hu : imageUrlsOf contentStr.data = m1.url :: m2.url :: imageUrlsOf r2 := by
    rw [imageUrlsOf_cons _ _ _ _ h1, imageUrlsOf_cons _ _ _ _ h2]
  have hstrip : strippedOf contentStr.data = g1 ++ (g2 ++ strippedOf r2) := by
    rw [strippedOf_cons _ _ _ _ h1, strippedOf_cons _ _ _ _ h2]
  refine ⟨?_, hu, hstrip, ?_⟩
  · rw [hd1, hd2]
  · have hinner := editImageInner_content r j choice rest0 msgv contentStr hok hj hch hmsg hc
    have hpc := processContent_with_match contentStr m1.url (m2.url :: imageUrlsOf r2) hu
    rw [hstrip] at hpc
    exact editImageOutcome_of_ok parse r _ (hinner.trans hpc)

/-- C4 witnessed at content `![a](https://x.io/p) and https://y.io/b.png tail`. -/
theorem c4_first_match_wins_witness :
    "![a](https://x.io/p) and https://y.io/b.png tail".data =
      [] ++ "![a](https://x.io/p)".data ++
        (" and ".data ++ "https://y.io/b.png".data ++ " tail".data) ∧
    imageUrlsOf "![a](https://x.io/p) and https://y.io/b.png tail".data =
      "https://x.io/p".data :: "https://y.io/b.png".data :: imageUrlsOf " tail".data ∧
    strippedOf "![a](https://x.io/p) and https://y.io/b.png tail".data =
      [] ++ (" and ".data ++ strippedOf " tail".data) ∧
    editImageOutcome (fun _ => none)
      { ok := true, status := 200, statusText := "OK", raw := "",
        json := some
          { choices := some [{ message := some { content := some "![a](https://x.io/p) and https://y.io/b.png tail" } }] } }
      = Except.ok
        { imageUrl := some (String.mk "https://x.io/p".data),
          text := if (jsTrim ([] ++ (" and ".data ++ strippedOf " tail".data))).isEmpty
                  then none
                  else some (String.mk (jsTrim ([] ++ (" and ".data ++ strippedOf " tail".data)))),
          videoUrl := none } :=
  c4_first_match_wins (fun _ => none)
    { ok := true, status := 200, statusText := "OK", raw := "",
      json := some
        { choices := some [{ message := some { content := some "![a](https://x.io/p) and https://y.io/b.png tail" } }] } }
    { choices := some [{ message := some { content := some "![a](https://x.io/p) and https://y.io/b.png tail" } }] }
    { message := some { content := some "![a](https://x.io/p) and https://y.io/b.png tail" } } []
    { content := some "![a](https://x.io/p) and https://y.io/b.png tail" }
    "![a](https://x.io/p) and https://y.io/b.png tail"
    [] ⟨"![a](https://x.io/p)".data, "https://x.io/p".data, true⟩
    " and https://y.io/b.png tail".data
    " and ".data ⟨"https://y.io/b.png".data, "https://y.io/b.png".data, false⟩ " tail".data
    rfl rfl rfl rfl rfl rfl rfl

/-- C7: with a successful HTTP status and a JSON body, the call rejects with
one of the two malformed-response messages exactly when the body has no
`choices` (missing or empty array) or the first choice's message content is
undefined; an empty-string content does not trigger it. -/
theorem c7_malformed_iff (parse : String → Option OuterErrShape)
    (r : HttpResponse) (j : BodyJsonView)
    (hok : r.ok = true) (hj : r.json = some j)
    (hm1 : parse malformedChoicesMsg = none) (hm2 : parse malformedMessageMsg = none)
    (hpn : parse noImageMsg = none) (hpm : ∀ t, parse (modelRespMsg t) = none) :
    (editImageOutcome parse r = Except.error malformedChoicesMsg ∨
     editImageOutcome parse r = Except.error malformedMessageMsg) ↔
    (j.choices = none ∨ j.choices = some [] ∨
     ∃ choice rest0, j.choices = some (choice :: rest0) ∧
       choice.message.bind (fun mv => mv.content) = none) := by
  cases hch : j.choices with
  | none =>
    have hinner : editImageInner r = Except.error malformedChoicesMsg := by
      simp only [editImageInner, hok, hj, hch, if_true]
    have hout : editImageOutcome parse r = Except.error malformedChoicesMsg := by
      rw [editImageOutcome_of_error parse r _ hinner, normalizeMsg_id parse _ hm1]
    exact iff_of_true (Or.inl hout) (Or.inl rfl)
  | some lst =>
    cases lst with
    | nil =>
      have hinner : editImageInner r = Except.error malformedChoicesMsg := by
        simp only [editImageInner, hok, hj, hch, if_true]
      have hout : editImageOutcome parse r = Except.error malformedChoicesMsg := by
        rw [editImageOutcome_of_error parse r _ hinner, normalizeMsg_id parse _ hm1]
      exact iff_of_true (Or.inl hout) (Or.inr (Or.inl rfl))
    | cons choice rest0 =>
      cases hmsg : choice.message with
      | none =>
        have hinner : editImageInner r = Except.error malformedMessageMsg := by
          simp only [editImageInner, hok, hj, hch, hmsg, if_true]
        have hout : editImageOutcome parse r = Except.error malformedMessageMsg := by
          rw [editImageOutcome_of_error parse r _ hinner, normalizeMsg_id parse _ hm2]
        exact iff_of_true (Or.inr hout)
          (Or.inr (Or.inr ⟨choice, rest0, rfl, by simp [hmsg]⟩))
      | some mv =>
        cases hc : mv.content with
        | none =>
          have hinner : editImageInner r = Except.error malformedMessageMsg := by
            simp only [editImageInner, hok, hj, hch, hmsg, hc, if_true]
          have hout : editImageOutcome parse r = Except.error malformedMessageMsg := by
            rw [editImageOutcome_of_error parse r _ hinner, normalizeMsg_id parse _ hm2]
          exact iff_of_true (Or.inr hout)
            (Or.inr (Or.inr ⟨choice, rest0, rfl, by simp [hmsg, hc]⟩))
        | some contentStr =>
          have hinner := editImageInner_content r j choice rest0 mv contentStr
            hok hj hch hmsg hc
          refine iff_of_false ?_ ?_
          · intro hlhs
            cases hpc : processContent contentStr with
            | ok gc =>
              have hout := editImageOutcome_of_ok parse r gc (hinner.trans hpc)
              rcases hlhs with h | h <;> rw [hout] at h <;> exact Except.noConfusion h
            | error e =>
              have hout := editImageOutcome_of_error parse r e (hinner.trans hpc)
              have hsh := processContent_error_shape contentStr e hpc
              have hid : normalizeMsg parse e = e := by
                rcases hsh with ⟨t, ht⟩ | ht
                · rw [ht]; exact normalizeMsg_id parse _ (hpm t)
                · rw [ht]; exact normalizeMsg_id parse _ hpn
              rw [hid] at hout
              rcases hlhs with h | h <;> rw [hout] at h <;>
                simp only [Except.error.injEq] at h
              · rcases hsh with ⟨t, ht⟩ | ht
                · exact modelRespMsg_ne_choices t (by rw [← ht]; exact h)
                · rw [ht] at h; exact absurd h (by decide)
              · rcases hsh with ⟨t, ht⟩ | ht
                · exact modelRespMsg_ne_message t (by rw [← ht]; exact h)
                · rw [ht] at h; exact absurd h (by decide)
          · intro hrhs
            rcases hrhs with h | h | ⟨ch, rs, heq, hbind⟩
            · exact Option.noConfusion h
            · simp at h
            · simp only [Option.some.injEq, List.cons.injEq] at heq
              obtain ⟨hcc, _⟩ := heq
              rw [← hcc] at hbind
              simp [hmsg, hc] at hbind

/-- C7 witnessed at an empty `choices` array. -/
theorem c7_malformed_iff_witness :
    editImageOutcome (fun _ => none)
      { ok := true, status := 200, statusText := "OK", raw := "",
        json := some { choices := some [] } }
      = Except.error malformedChoicesMsg ∨
    editImageOutcome (fun _ => none)
      { ok := true, status := 200, statusText := "OK", raw := "",
        json := some { choices := some [] } }
      = Except.error malformedMessageMsg :=
  (c7_malformed_iff (fun _ => none)
    { ok := true, status := 200, statusText := "OK", raw := "",
      json := some { choices := some [] } }
    { choices := some [] }
    rfl rfl rfl rfl rfl (fun _ => rfl)).mpr (Or.inr (Or.inl rfl))

/-- C8: when the delegated image call fails, `generateVideo` never reports
progress 100 (only the 10 and 30 checkpoints ran) and rejects with the
localized `视频生成失败: ` wrapper around the underlying message. -/
theorem c8_video_failure_wrap (parse : String → Option OuterErrShape)
    (prompt : String) (image : Option VideoImage) (ar : Option String)
    (r : HttpResponse) (m : String)
    (hf : editImageOutcome parse r = Except.error m) :
    100 ∉ (generateVideo parse prompt image ar r).1 ∧
    (generateVideo parse prompt image ar r).2 = Except.error (videoFailMsg m) := by
  simp [generateVideo, editImage, hf]

/-- C8 witnessed at a failing (non-JSON 502) response. -/
theorem c8_video_failure_wrap_witness :
    100 ∉ (generateVideo (fun _ => none) "a cat"
      none none
      { ok := false, status := 502, statusText := "Bad Gateway",
        raw := "oops", json := none }).1 ∧
    (generateVideo (fun _ => none) "a cat" none none
      { ok := false, status := 502, statusText := "Bad Gateway",
        raw := "oops", json := none }).2 = Except.error (videoFailMsg bodyUsedErrorMsg) :=
  c8_video_failure_wrap (fun _ => none) "a cat" none none
    { ok := false, status := 502, statusText := "Bad Gateway",
      raw := "oops", json := none }
    bodyUsedErrorMsg rfl

/-- C10: when the delegated image result has an absent (`null`) residual text,
`generateVideo` returns a text that is JavaScript's `null` coerced into the
string concatenation — it begins with the four characters `null` followed by
the disclaimer, and is not the disclaimer alone. -/
theorem c10_null_text_concat (parse : String → Option OuterErrShape)
    (prompt : String) (image : Option VideoImage) (ar : Option String)
    (r : HttpResponse) (gc : GeneratedContent)
    (hok : editImageOutcome parse r = Except.ok gc) (ht : gc.text = none) :
    (generateVideo parse prompt image ar r).1 = [10, 30, 70, 100] ∧
    (generateVideo parse prompt image ar r).2 = Except.ok
      { imageUrl := gc.imageUrl, text := some ("null" ++ videoDisclaimer),
        videoUrl := some "data:video/mp4;base64," } ∧
    startsWithL "null".data ("null" ++ videoDisclaimer).data = true ∧
    ("null" ++ videoDisclaimer : String) ≠ videoDisclaimer := by
  refine ⟨?_, ?_, by decide, by decide⟩ <;>
    simp [generateVideo, editImage, hok, jsAddNullable, ht]

/-- C10 witnessed at a response whose content is a bare image URL with no
residual text. -/
theorem c10_null_text_concat_witness :
    (generateVideo (fun _ => none) "a cat" none none
      { ok := true, status := 200, statusText := "OK", raw := "",
        json := some
          { choices := some [{ message := some { content := some "https://a.com/x.png" } }] } }).1
      = [10, 30, 70, 100] ∧
    (generateVideo (fun _ => none) "a cat" none none
      { ok := true, status := 200, statusText := "OK", raw := "",
        json := some
          { choices := some [{ message := some { content := some "https://a.com/x.png" } }] } }).2
      = Except.ok
        { imageUrl := some "https://a.com/x.png", text := some ("null" ++ videoDisclaimer),
          videoUrl := some "data:video/mp4;base64," } ∧
    startsWithL "null".data ("null" ++ videoDisclaimer).data = true ∧
    ("null" ++ videoDisclaimer : String) ≠ videoDisclaimer :=
  c10_null_text_concat (fun _ => none) "a cat" none none
    { ok := true, status := 200, statusText := "OK", raw := "",
      json := some
        { choices := some [{ message := some { content := some "https://a.com/x.png" } }] } }
    { imageUrl := some "https://a.com/x.png", text := none, videoUrl := none }
    rfl rfl

end Nano
